import Mathlib

/-!
Shallow embedding of the vision-parse page-extraction pipeline
(src/vision_parse/llm.py, src/vision_parse/parser.py, src/vision_parse/constants.py).

External effects (the Gemini network call, PyMuPDF rasterization, the embedded-image
extractor from utils.py) are supplied by an `Env` oracle; the control flow, exception
propagation, retry policy, prompt construction and result assembly are translated
from the Python source.  Python's exception-class hierarchy matters here: the
repository's custom exceptions derive from `BaseException`, so an `except Exception`
clause does not catch them; the embedding records for each error whether it is an
`Exception` subclass.
-/

namespace VisionParse

/-- Python exceptions observable in this pipeline.  Each constructor records the
message (`str(e)`).  Which constructors are `Exception` subclasses is given by
`PyErr.isException` below. -/
inductive PyErr where
  /-- `class LLMError(BaseException)` (llm.py). -/
  | llmError (msg : String)
  /-- `pydantic.ValidationError`, a `ValueError` hence an `Exception` subclass. -/
  | validationError (msg : String)
  /-- `class VisionParserError(BaseException)` (parser.py). -/
  | visionParserError (msg : String)
  /-- `FileNotFoundError`, an `OSError` hence an `Exception` subclass. -/
  | fileNotFoundError (msg : String)
  /-- `class UnsupportedFileError(BaseException)` (parser.py). -/
  | unsupportedFileError (msg : String)
  /-- `UnboundLocalError`, an `Exception` subclass. -/
  | unboundLocalError (msg : String)
  /-- Any other `Exception` raised by the environment (network failures etc.). -/
  | otherError (msg : String)
deriving DecidableEq

/-- Whether the error is an instance of Python's `Exception` (as opposed to a
direct `BaseException` subclass).  `except Exception` catches exactly these. -/
def PyErr.isException : PyErr → Bool
  | .llmError _ => false
  | .validationError _ => true
  | .visionParserError _ => false
  | .fileNotFoundError _ => true
  | .unsupportedFileError _ => false
  | .unboundLocalError _ => true
  | .otherError _ => true

/-- `str(e)` of the exception. -/
def PyErr.msg : PyErr → String
  | .llmError m => m
  | .validationError m => m
  | .visionParserError m => m
  | .fileNotFoundError m => m
  | .unsupportedFileError m => m
  | .unboundLocalError m => m
  | .otherError m => m

/-- The `image_mode` configuration: `Literal["url", "base64", None]` with `None`
represented by `Option.none`. -/
inductive ImageMode where
  | url
  | base64
deriving DecidableEq

/-- Modelled from the spec: the record produced by `ImageData.extract_images` in
utils.py, which is not among the provided sources; the two fields are exactly
those read by `llm.py` when assembling markdown image references (a locator
`image_url` and the inline-encoded payload `base64_encoded`). -/
structure ImageData where
  image_url : String
  base64_encoded : String
deriving DecidableEq

/-- Schema of the structured analysis response (`class ImageDescription` in llm.py).
The four detection fields are `Literal["Yes", "No"]` in pydantic; they are kept as
strings here because the source compares them with `.strip() == "Yes"/"No"`. -/
structure ImageDescription where
  text_detected : String
  tables_detected : String
  images_detected : String
  latex_equations_detected : String
  extracted_text : String
  confidence_score_text : Rat
deriving DecidableEq

/-- The prompts sent to the model.  The two jinja templates are fixed package
data files; a rendered prompt is determined by the template identity and the
values substituted into it, which is what this type records. -/
inductive Prompt where
  /-- `image_analysis.j2` rendered with no arguments. -/
  | imageAnalysis
  /-- `markdown_prompt.j2` rendered with the given field values. -/
  | markdownPrompt (extracted_text : String) (tables_detected : String)
      (latex_equations_detected : String) (confidence_score_text : Rat)
      (custom_prompt : Option String)
deriving DecidableEq

/-- Observable external actions of a run, in order of occurrence. -/
inductive Event where
  /-- One invocation of `_get_response`/`_gemini` (counting its internal retry
  attempts as a single network call site). -/
  | modelCall (structured : Bool) (prompt : Prompt)
  /-- One invocation of `ImageData.extract_images` for the given page. -/
  | extract (page : Nat)
deriving DecidableEq

/-- Run-scoped mutable state of the `LLM` object that the pipeline reads or
writes (llm.py `__init__`).  `detailed_extraction` is the sticky fallback flag. -/
structure LLMState where
  image_mode : Option ImageMode
  custom_prompt : Option String
  detailed_extraction : Bool
deriving DecidableEq

/-- The environment supplying the outcome of every external effect:
`respond call attempt` is the raw text (or raised exception) of attempt
`attempt` of the `call`-th model invocation of the run; `extractImages page` is
the extractor's result for a page; `raster page` is the base64-encoded PNG of a
rasterized page or the exception raised while rendering it. -/
structure Env where
  respond : Nat → Nat → Except PyErr String
  extractImages : Nat → List ImageData
  raster : Nat → Except PyErr String

/-- The pydantic decode step `ImageDescription.model_validate_json`. -/
abbrev Validator := String → Except PyErr ImageDescription

/-- Python `str.strip()`: drop leading and trailing whitespace (the values
compared in the source are the `Literal["Yes","No"]` strings, all ASCII). -/
def pyStrip (s : String) : String :=
  String.mk (((s.data.dropWhile Char.isWhitespace).reverse.dropWhile
    Char.isWhitespace).reverse)

/-- Python `str.lower()` (the suffixes compared in the source are ASCII). -/
def pyLower (s : String) : String := String.mk (s.data.map Char.toLower)

/-! ### The fenced-code-block stripping regex

`re.sub(r"```(?:markdown)?\n(.*?)\n```", r"\1", text, flags=re.DOTALL)` from
`_gemini` (llm.py).  `re.sub` scans left to right; at the leftmost position
where the pattern matches, the lazy `(.*?)` takes the shortest inner text ending
just before the first later newline-plus-triple-backtick; the whole match is
replaced by the inner text and scanning resumes after the match. -/

/-- The fence opener with the optional group consumed: three backticks,
`markdown`, newline. -/
def openerMd : List Char :=
  ['\x60', '\x60', '\x60', 'm', 'a', 'r', 'k', 'd', 'o', 'w', 'n', '\n']

/-- The bare fence opener: three backticks, newline. -/
def openerPlain : List Char := ['\x60', '\x60', '\x60', '\n']

/-- The closing delimiter: newline, three backticks. -/
def closeTok : List Char := ['\n', '\x60', '\x60', '\x60']

/-- Does the closing delimiter occur at the head of the text? -/
def startsWithClose (l : List Char) : Bool := closeTok.isPrefixOf l

/-- Does the closing delimiter occur anywhere in the text? -/
def hasClose : List Char → Bool
  | [] => false
  | c :: cs => startsWithClose (c :: cs) || hasClose cs

/-- Split the text at the first occurrence of the closing delimiter: returns the
text before it and the text after it. -/
def findClose : List Char → Option (List Char × List Char)
  | [] => none
  | c :: cs =>
    if startsWithClose (c :: cs) then some ([], (c :: cs).drop closeTok.length)
    else (findClose cs).map (fun p => (c :: p.1, p.2))

/-- Match the fence opener at the head of the text; the greedy `(?:markdown)?`
group prefers consuming `markdown`. -/
def tryOpen (l : List Char) : Option (List Char) :=
  if openerMd.isPrefixOf l then some (l.drop openerMd.length)
  else if openerPlain.isPrefixOf l then some (l.drop openerPlain.length)
  else none

/-- The substitution loop of `re.sub` for this pattern: scan for the leftmost
fence opener; on a complete match, emit the inner text and continue after the
match; otherwise advance one character.  The loop consumes at least one
character of the text per step, so `fuel` bounds the number of steps; it is
instantiated with the text length in `stripFences`, which always suffices. -/
def stripFencesGo : Nat → List Char → List Char
  | _, [] => []
  | 0, l => l
  | fuel + 1, c :: cs =>
    match tryOpen (c :: cs) with
    | some rest =>
      match findClose rest with
      | some p => p.1 ++ stripFencesGo fuel p.2
      | none => c :: stripFencesGo fuel cs
    | none => c :: stripFencesGo fuel cs

/-- `re.sub(r"```(?:markdown)?\n(.*?)\n```", r"\1", text, flags=re.DOTALL)`. -/
def stripFences (l : List Char) : List Char := stripFencesGo l.length l

/-- String-level wrapper of `stripFences`, the value returned by `_gemini` on a
successful attempt. -/
def stripFencesStr (s : String) : String := String.mk (stripFences s.data)

/-! ### The model call under tenacity's retry decorator

`@retry(reraise=True, stop=stop_after_attempt(3), wait=wait_exponential(multiplier=1,
min=4, max=10))` on `_gemini` (llm.py).  Tenacity's default `retry` condition is
`retry_if_exception_type()`, whose default argument is `Exception`: an outcome
whose exception is not an `Exception` instance is re-raised immediately instead
of being retried.  `reraise=True` re-raises the last error once attempts are
exhausted. -/

/-- Tenacity's default retry condition: retry only when the raised error is an
`Exception` instance (`retry_if_exception_type()` with its `Exception` default). -/
def tenacityDefaultRetry (e : PyErr) : Bool := e.isException

/-- The tenacity wait function `wait_exponential(multiplier=1, min=4, max=10)`:
after attempt number `n` the sleep is `multiplier * 2^n` clamped to [min, max]. -/
def waitExponential (n : Nat) : Nat := max 4 (min (2 ^ n) 10)

/-- One attempt driver of tenacity: `remaining` attempts are allowed, the next
one has index `n`.  A success returns; an error is retried only if the retry
condition accepts it and attempts remain, otherwise it is re-raised
(`reraise=True`). -/
def retryFrom (pred : PyErr → Bool) (f : Nat → Except PyErr String) :
    Nat → Nat → Except PyErr String
  | 0, n => f n
  | 1, n => f n
  | (k + 2), n =>
    match f n with
    | .ok t => .ok t
    | .error e => if pred e then retryFrom pred f (k + 1) (n + 1) else .error e

/-- One attempt of `_gemini`'s body: the provider call either returns raw text,
of which the fenced-code-block stripping is returned, or raises; a raised
`Exception` is wrapped by the body's `except Exception` clause into
`LLMError(f"Gemini Model processing failed: {str(e)}")`. -/
def geminiAttempt (env : Env) (cc : Nat) (n : Nat) : Except PyErr String :=
  match env.respond cc n with
  | .ok t => .ok (stripFencesStr t)
  | .error e =>
    if e.isException then
      .error (.llmError ("Gemini Model processing failed: " ++ e.msg))
    else .error e

/-- `_get_response`/`_gemini`: the `cc`-th model invocation of the run, under the
retry decorator with `stop_after_attempt(3)`.  Returns the call outcome, the
next invocation counter and the emitted event.  The structured flag selects
response schema, temperature 0 and top_p 0.4 on the wire; those generation
parameters are part of the environment's response behavior. -/
def geminiCall (env : Env) (structured : Bool) (prompt : Prompt) (cc : Nat) :
    Except PyErr String × Nat × List Event :=
  (retryFrom tenacityDefaultRetry (geminiAttempt env cc) 3 0, cc + 1,
    [Event.modelCall structured prompt])

/-! ### `generate_markdown` (llm.py) -/

/-- The markdown-generation prompt rendered with the fixed fallback defaults
(`extracted_text=""`, `tables_detected="Yes"`, `latex_equations_detected="No"`,
`confidence_score_text=0.0`) plus the custom prompt. -/
def defaultMdPrompt (custom : Option String) : Prompt :=
  .markdownPrompt "" "Yes" "No" 0 custom

/-- The state after the `except Exception` handler ran: same configuration with
`self.detailed_extraction = False`. -/
def fallbackState (st : LLMState) : LLMState :=
  ⟨st.image_mode, st.custom_prompt, false⟩

/-- One markdown image reference appended by `generate_markdown`: in `url` mode
the target is the locator, in `base64` mode the inline payload; the alt text is
the locator in both modes. -/
def imageRef (mode : ImageMode) (d : ImageData) : String :=
  match mode with
  | .url => "\n\n![" ++ d.image_url ++ "](" ++ d.image_url ++ ")"
  | .base64 => "\n\n![" ++ d.image_url ++ "](" ++ d.base64_encoded ++ ")"

/-- The `if extracted_images:` block at the end of `generate_markdown`: append
one reference per extracted image according to the configured mode. -/
def appendImageRefs (mode : Option ImageMode) (md : String)
    (imgs : List ImageData) : String :=
  if imgs.isEmpty then md
  else
    match mode with
    | some m => imgs.foldl (fun acc d => acc ++ imageRef m d) md
    | none => md

/-- Result of one `generate_markdown`/`_convert_page` invocation: the returned
markdown or the propagated exception, the LLM state after the call, the next
model-invocation counter, and the events emitted. -/
abbrev GenResult := Except PyErr String × LLMState × Nat × List Event

/-- The tail of `generate_markdown` from the `markdown_content = await
self._get_response(...)` line: run the freeform call with the built prompt and
append the image references on success. -/
def finishGenerate (env : Env) (st : LLMState) (imgs : List ImageData)
    (prompt : Prompt) (cc : Nat) (ev : List Event) : GenResult :=
  match geminiCall env false prompt cc with
  | (.ok md, cc', ev2) => (.ok (appendImageRefs st.image_mode md imgs), st, cc', ev ++ ev2)
  | (.error e, cc', ev2) => (.error e, st, cc', ev ++ ev2)

/-- `LLM.generate_markdown` (llm.py).  In detailed mode it runs the structured
analysis inside `try ... except Exception`: a caught failure (an `Exception`
such as a pydantic decode error) flips `detailed_extraction` off and falls
through to the default prompt; an uncaught failure (an `LLMError`, being a
`BaseException`) propagates.  On success with `text_detected == "No"` it returns
the empty string immediately; otherwise it may invoke the image extractor and
builds the markdown prompt from the decoded fields. -/
def generate_markdown (env : Env) (validate : Validator) (st : LLMState)
    (page_number : Nat) (cc : Nat) : GenResult :=
  if st.detailed_extraction then
    match geminiCall env true .imageAnalysis cc with
    | (.error e, cc', ev) =>
      if e.isException then
        finishGenerate env (fallbackState st) [] (defaultMdPrompt st.custom_prompt) cc' ev
      else (.error e, st, cc', ev)
    | (.ok response, cc', ev) =>
      match validate response with
      | .error e =>
        if e.isException then
          finishGenerate env (fallbackState st) [] (defaultMdPrompt st.custom_prompt) cc' ev
        else (.error e, st, cc', ev)
      | .ok jr =>
        if pyStrip jr.text_detected = "No" then (.ok "", st, cc', ev)
        else
          let doExtract := pyStrip jr.images_detected = "Yes" ∧ st.image_mode ≠ none
          let imgs := if doExtract then env.extractImages page_number else []
          let evx := if doExtract then [Event.extract page_number] else []
          finishGenerate env st imgs
            (.markdownPrompt jr.extracted_text jr.tables_detected
              jr.latex_equations_detected jr.confidence_score_text st.custom_prompt)
            cc' (ev ++ evx)
  else
    finishGenerate env st [] (defaultMdPrompt st.custom_prompt) cc []

/-! ### The rasterization matrix (`VisionParser._calculate_matrix`, parser.py)

PyMuPDF's `fitz.Matrix` is the affine map `(x, y) ↦ (x*a + y*c + e, x*b + y*d + f)`
in row-vector convention; floats are modelled as exact rationals. -/

/-- `fitz.Matrix(a, b, c, d, e, f)`. -/
structure FitzMatrix where
  a : Rat
  b : Rat
  c : Rat
  d : Rat
  e : Rat
  f : Rat
deriving DecidableEq

/-- `fitz.Matrix(zoom_x, zoom_y)`: the pure scaling matrix. -/
def fitzScale (zx zy : Rat) : FitzMatrix := ⟨zx, 0, 0, zy, 0, 0⟩

/-- `fitz.Matrix.prerotate(theta)`: normalize the angle into [0, 360) and
pre-compose with the rotation.  PyMuPDF implements the multiples of 90 exactly
(the only rotations a PDF page can carry); other angles would use trigonometric
entries and do not arise here, so they leave the matrix unchanged in this model. -/
def FitzMatrix.prerotate (m : FitzMatrix) (theta : Int) : FitzMatrix :=
  let t := theta % 360
  if t = 90 then ⟨m.c, m.d, -m.a, -m.b, m.e, m.f⟩
  else if t = 180 then ⟨-m.a, -m.b, -m.c, -m.d, m.e, m.f⟩
  else if t = 270 then ⟨-m.c, -m.d, m.a, m.b, m.e, m.f⟩
  else m

/-- `VisionParser._calculate_matrix`: `zoom = dpi / 72`, the matrix is
`fitz.Matrix(zoom * 2, zoom * 2)`, and a nonzero page rotation is applied as a
pre-rotation. -/
def calculate_matrix (dpi : Int) (rotation : Int) : FitzMatrix :=
  let zoom : Rat := (dpi : Rat) / 72
  let matrix := fitzScale (zoom * 2) (zoom * 2)
  if rotation ≠ 0 then matrix.prerotate rotation else matrix

/-- Apply the affine map to a point (row-vector convention of PyMuPDF). -/
def FitzMatrix.apply (m : FitzMatrix) (x y : Rat) : Rat × Rat :=
  (x * m.a + y * m.c + m.e, x * m.b + y * m.d + m.f)

/-- Scaling of a point by a factor on both axes (specification side). -/
def scalePoint (s : Rat) (p : Rat × Rat) : Rat × Rat := (s * p.1, s * p.2)

/-- Rotation of a point by a multiple of 90 degrees in PyMuPDF's y-down
convention (specification side, independent of the matrix representation). -/
def rotatePoint (theta : Int) (p : Rat × Rat) : Rat × Rat :=
  let t := theta % 360
  if t = 90 then (-p.2, p.1)
  else if t = 180 then (-p.1, -p.2)
  else if t = 270 then (p.2, -p.1)
  else p

/-! ### `VisionParser._convert_page` and the page loops (parser.py) -/

/-- `VisionParser._convert_page`: rasterize the page, base64-encode it and call
`generate_markdown`, inside `try ... except Exception ... finally`.  A
rasterization failure is caught and re-raised as `VisionParserError`, but the
`finally` block then reads the local `pix`, which was never assigned, so an
`UnboundLocalError` supersedes it.  A failure from `generate_markdown` is
wrapped into `VisionParserError` (with the 1-based page number) only when it is
an `Exception`; an `LLMError`, being a `BaseException`, propagates unwrapped. -/
def convert_page (env : Env) (validate : Validator) (st : LLMState)
    (page_number : Nat) (cc : Nat) : GenResult :=
  match env.raster page_number with
  | .error _ =>
    (.error (.unboundLocalError
      "cannot access local variable pix where it is not associated with a value"),
      st, cc, [])
  | .ok _ =>
    match generate_markdown env validate st page_number cc with
    | (.ok md, st', cc', ev) => (.ok md, st', cc', ev)
    | (.error e, st', cc', ev) =>
      if e.isException then
        (.error (.visionParserError ("Failed to convert page "
          ++ toString (page_number + 1) ++ " to base64-encoded PNG: " ++ e.msg)),
          st', cc', ev)
      else (.error e, st', cc', ev)

/-- Result of converting a range of pages: the collected markdown list or the
first propagated exception, the final LLM state, the next model-invocation
counter and the events emitted. -/
abbrev RunResult := Except PyErr (List String) × LLMState × Nat × List Event

/-- Convert `n` consecutive pages starting at index `start`, in index order,
threading the LLM state; stops at the first exception.  This is both the
non-concurrent page loop of `convert_file` and the order-preserving join of one
`_convert_pages_batch` (`asyncio.gather` returns results in submission order). -/
def convertPagesFrom (env : Env) (validate : Validator) :
    LLMState → Nat → Nat → Nat → RunResult
  | st, _, 0, cc => (.ok [], st, cc, [])
  | st, start, n + 1, cc =>
    match convert_page env validate st start cc with
    | (.error e, st', cc', ev) => (.error e, st', cc', ev)
    | (.ok md, st', cc', ev) =>
      match convertPagesFrom env validate st' (start + 1) n cc' with
      | (res, st2, cc2, ev2) => (res.map (md :: ·), st2, cc2, ev ++ ev2)

/-- The LLM state and invocation counter just before page `start + k` is
processed, when pages `start, ..., start + k - 1` have been processed in order
from state `st` and counter `cc`. -/
def pageStateFrom (env : Env) (validate : Validator) :
    LLMState → Nat → Nat → Nat → LLMState × Nat
  | st, _, cc, 0 => (st, cc)
  | st, start, cc, k + 1 =>
    match convert_page env validate st start cc with
    | (_, st', cc', _) => pageStateFrom env validate st' (start + 1) cc' k

/-- The concurrent branch of `convert_file`: `for i in range(0, total_pages,
num_workers)` take the batch of `min(num_workers, total_pages - i)` pages,
convert it with an order-preserving join, extend the accumulator and move to the
next batch.  (`w` is `num_workers`; the positivity witness reflects that
`range` with step 0 is rejected by Python before the loop body ever runs.) -/
def convertBatchedLoop (env : Env) (validate : Validator) (w : Nat) :
    Nat → LLMState → Nat → Nat → Nat → RunResult
  | 0, st, cc, _, _ => (.ok [], st, cc, [])
  | fuel + 1, st, cc, i, total =>
    if i < total then
      match convertPagesFrom env validate st i (min w (total - i)) cc with
      | (.error e, st', cc', ev) => (.error e, st', cc', ev)
      | (.ok batch, st', cc', ev) =>
        match convertBatchedLoop env validate w fuel st' cc' (i + w) total with
        | (res, st2, cc2, ev2) => (res.map (batch ++ ·), st2, cc2, ev ++ ev2)
    else (.ok [], st, cc, [])

/-- The whole concurrent branch: Python's `range(0, total_pages, num_workers)`
raises `ValueError` (an `Exception`) when the step is zero; otherwise run the
batch loop from index 0.  Since every iteration advances `i` by `num_workers ≥ 1`,
a fuel of `total` batches always suffices. -/
def convertBatched (env : Env) (validate : Validator) (w : Nat)
    (st : LLMState) (cc total : Nat) : RunResult :=
  if w = 0 then
    (.error (.otherError "range() arg 3 must not be zero"), st, cc, [])
  else
    convertBatchedLoop env validate w total st cc 0 total

/-! ### `VisionParser.convert_file` (parser.py) -/

/-- The input file as `convert_file` observes it: existence and regular-file
status of the path, the file-name suffix (`Path.suffix`), the page count of the
underlying PDF document, and the raw bytes — which `convert_file` never
inspects, since classification is by extension only. -/
structure FileInput where
  path : String
  pathExists : Bool
  isFile : Bool
  suffix : String
  pageCount : Nat
  content : String
deriving DecidableEq

/-- The `VisionParser`-level configuration read by `convert_file`. -/
structure ParserState where
  llm : LLMState
  enable_concurrency : Bool
  num_workers : Nat
deriving DecidableEq

/-- The suffix allow-list of `convert_file`. -/
def supportedSuffixes : List String := [".pdf", ".png", ".jpg", ".jpeg"]

/-- The suffixes routed to the single-synthetic-page image branch. -/
def imageSuffixes : List String := [".png", ".jpg", ".jpeg"]

/-- The body of `convert_file`'s `try` block: route images to a single
synthetic page at index 0 and PDFs to the sequential or batched page loop. -/
def convertInner (env : Env) (validate : Validator)
    (ps : ParserState) (file : FileInput) : RunResult :=
  if pyLower file.suffix ∈ imageSuffixes then
    match convert_page env validate ps.llm 0 0 with
    | (.ok t, st', cc, ev) => (.ok [t], st', cc, ev)
    | (.error e, st', cc, ev) => (.error e, st', cc, ev)
  else if ps.enable_concurrency then
    convertBatched env validate ps.num_workers ps.llm 0 file.pageCount
  else
    convertPagesFrom env validate ps.llm 0 file.pageCount 0

/-- `VisionParser.convert_file`: validate existence, then the lower-cased
suffix against the allow-list; run the `try` body; wrap an `Exception` escaping
the `try` block into `VisionParserError` (a `BaseException` such as `LLMError`
or a page-level `VisionParserError` passes the handler unchanged). -/
def convert_file (env : Env) (validate : Validator)
    (ps : ParserState) (file : FileInput) : RunResult :=
  if ¬(file.pathExists ∧ file.isFile) then
    (.error (.fileNotFoundError ("File not found: " ++ file.path)), ps.llm, 0, [])
  else if pyLower file.suffix ∉ supportedSuffixes then
    (.error (.unsupportedFileError ("Unsupported file type: " ++ file.path)),
      ps.llm, 0, [])
  else
    match convertInner env validate ps file with
    | (.error e, st', cc, ev) =>
      if e.isException then
        (.error (.visionParserError
          ("Failed to convert PDF file into markdown content: " ++ e.msg)),
          st', cc, ev)
      else (.error e, st', cc, ev)
    | ok => ok

/-! ### Concrete environments used as counterexample inputs -/

/-- An environment whose model calls always raise the given `Exception`. -/
def failEnv (m : String) : Env :=
  ⟨fun _ _ => .error (.otherError m), fun _ => [], fun _ => .ok "png"⟩

/-- An environment whose model calls fail on the first attempt with a transient
`Exception` and would succeed on any later attempt. -/
def flakyEnv : Env :=
  ⟨fun _ n => if n = 0 then .error (.otherError "transient") else .ok "recovered",
   fun _ => [], fun _ => .ok "png"⟩

/-- An environment where the first model invocation of the run succeeds and
every later one raises, so with detailed extraction off the second page's
markdown-generation call exhausts its attempts. -/
def genFailEnv : Env :=
  ⟨fun cc _ => if cc = 0 then .ok "page zero markdown"
               else .error (.otherError "connection reset"),
   fun _ => [], fun _ => .ok "png"⟩

/-! ### Supporting lemmas -/

theorem isPrefixOf_length {l1 l2 : List Char} (h : l1.isPrefixOf l2 = true) :
    l1.length ≤ l2.length := by
  induction l1 generalizing l2 with
  | nil => simp
  | cons a as ih =>
    cases l2 with
    | nil => simp [List.isPrefixOf] at h
    | cons b bs =>
      simp only [List.isPrefixOf, Bool.and_eq_true] at h
      have := ih h.2
      simp only [List.length_cons]
      omega

theorem isPrefixOf_append_self (l1 x : List Char) :
    l1.isPrefixOf (l1 ++ x) = true := by
  induction l1 with
  | nil => simp [List.isPrefixOf]
  | cons a as ih => simp [List.isPrefixOf, ih]

theorem findClose_length {l : List Char} {p : List Char × List Char}
    (h : findClose l = some p) : p.2.length + 4 ≤ l.length := by
  induction l generalizing p with
  | nil => simp [findClose] at h
  | cons c cs ih =>
    rw [findClose] at h
    by_cases hs : startsWithClose (c :: cs)
    · rw [if_pos hs] at h
      have hlen : closeTok.length ≤ (c :: cs).length := isPrefixOf_length hs
      cases h
      simp only [List.length_drop, closeTok, List.length_cons] at *
      omega
    · rw [if_neg hs] at h
      cases hfc : findClose cs with
      | none => rw [hfc] at h; simp at h
      | some q =>
        have hq := ih hfc
        rw [hfc] at h
        simp only [Option.map_some'] at h
        cases h
        show q.2.length + 4 ≤ cs.length + 1
        omega

theorem tryOpen_length {l : List Char} {r : List Char}
    (h : tryOpen l = some r) : r.length + 4 ≤ l.length := by
  rw [tryOpen] at h
  by_cases h1 : openerMd.isPrefixOf l
  · rw [if_pos h1] at h
    have hlen : openerMd.length ≤ l.length := isPrefixOf_length h1
    cases h
    simp only [List.length_drop, openerMd, List.length_cons] at *
    omega
  · rw [if_neg h1] at h
    by_cases h2 : openerPlain.isPrefixOf l
    · rw [if_pos h2] at h
      have hlen : openerPlain.length ≤ l.length := isPrefixOf_length h2
      cases h
      simp only [List.length_drop, openerPlain, List.length_cons] at *
      omega
    · simp [h2] at h

theorem stripFencesGo_nil (fuel : Nat) : stripFencesGo fuel [] = [] := by
  cases fuel <;> rfl

theorem stripFencesGo_succ_open {c : Char} {cs rest : List Char}
    {p : List Char × List Char} (fuel : Nat)
    (h1 : tryOpen (c :: cs) = some rest) (h2 : findClose rest = some p) :
    stripFencesGo (fuel + 1) (c :: cs) = p.1 ++ stripFencesGo fuel p.2 := by
  simp [stripFencesGo, h1, h2]

theorem tryOpen_plain (x : List Char) :
    tryOpen (openerPlain ++ x) = some x := by
  rw [tryOpen]
  have hmd : openerMd.isPrefixOf (openerPlain ++ x) = false := by
    simp [openerMd, openerPlain, List.isPrefixOf]
  have hpl : openerPlain.isPrefixOf (openerPlain ++ x) = true :=
    isPrefixOf_append_self _ _
  rw [hmd, hpl]
  simp [List.drop_left]

theorem tryOpen_md (x : List Char) :
    tryOpen (openerMd ++ x) = some x := by
  rw [tryOpen]
  have hmd : openerMd.isPrefixOf (openerMd ++ x) = true :=
    isPrefixOf_append_self _ _
  rw [hmd]
  simp [List.drop_left]

/-- No occurrence of the closing delimiter can straddle the boundary between a
text and an appended closing delimiter: the pattern's tail characters are
backticks while its head is the newline. -/
theorem startsWithClose_append {m : List Char} (z : List Char)
    (hm : startsWithClose m = false) (hne : m ≠ []) :
    startsWithClose (m ++ closeTok ++ z) = false := by
  match m with
  | [] => exact absurd rfl hne
  | [a] =>
    simp [startsWithClose, closeTok, List.isPrefixOf]
  | [a, b] =>
    simp [startsWithClose, closeTok, List.isPrefixOf]
  | [a, b, c] =>
    simp [startsWithClose, closeTok, List.isPrefixOf]
  | a :: b :: c :: d :: tl =>
    simp only [startsWithClose, closeTok, List.isPrefixOf, List.cons_append,
      List.append_assoc] at hm ⊢
    exact hm

theorem findClose_append {m : List Char} (r : List Char)
    (h : hasClose m = false) : findClose (m ++ closeTok ++ r) = some (m, r) := by
  induction m with
  | nil =>
    show findClose ('\n' :: '\x60' :: '\x60' :: '\x60' :: r) = some ([], r)
    rw [findClose]
    rw [if_pos (by simp [startsWithClose, closeTok, List.isPrefixOf])]
    simp [closeTok]
  | cons c cs ih =>
    rw [hasClose, Bool.or_eq_false_iff] at h
    have hs : startsWithClose (c :: (cs ++ closeTok ++ r)) = false :=
      startsWithClose_append r h.1 (by simp)
    show findClose (c :: (cs ++ closeTok ++ r)) = some (c :: cs, r)
    rw [findClose]
    rw [if_neg (by rw [List.append_assoc] at hs; simp [hs])]
    rw [ih h.2]
    rfl

/-- The regex substitution unfences a response that is exactly one fenced block
(bare or `markdown`-tagged) whose inner text contains no closing delimiter. -/
theorem stripFences_wrap {m : List Char} (h : hasClose m = false) :
    stripFences (openerPlain ++ m ++ closeTok) = m
    ∧ stripFences (openerMd ++ m ++ closeTok) = m := by
  have hfc : findClose (m ++ closeTok) = some (m, []) := by
    have := findClose_append (m := m) [] h
    rwa [List.append_nil] at this
  constructor
  · have h1 : tryOpen (openerPlain ++ (m ++ closeTok)) = some (m ++ closeTok) :=
      tryOpen_plain _
    rw [stripFences, List.append_assoc]
    have hlen : (openerPlain ++ (m ++ closeTok)).length = (m.length + 7) + 1 := by
      simp [openerPlain, closeTok]
    rw [hlen]
    rw [show openerPlain ++ (m ++ closeTok) =
      '\x60' :: ('\x60' :: '\x60' :: '\n' :: (m ++ closeTok)) from rfl] at h1 ⊢
    rw [stripFencesGo_succ_open _ h1 hfc]
    simp [stripFencesGo_nil]
  · have h1 : tryOpen (openerMd ++ (m ++ closeTok)) = some (m ++ closeTok) :=
      tryOpen_md _
    rw [stripFences, List.append_assoc]
    have hlen : (openerMd ++ (m ++ closeTok)).length = (m.length + 15) + 1 := by
      simp [openerMd, closeTok]
    rw [hlen]
    rw [show openerMd ++ (m ++ closeTok) =
      '\x60' :: ('\x60' :: '\x60' :: 'm' :: 'a' :: 'r' :: 'k' :: 'd' :: 'o' :: 'w' :: 'n'
        :: '\n' :: (m ++ closeTok)) from rfl] at h1 ⊢
    rw [stripFencesGo_succ_open _ h1 hfc]
    simp [stripFencesGo_nil]

theorem geminiCall_first_ok {env : Env} {cc : Nat} {raw : String}
    (structured : Bool) (prompt : Prompt) (h : env.respond cc 0 = .ok raw) :
    geminiCall env structured prompt cc
      = (.ok (stripFencesStr raw), cc + 1, [.modelCall structured prompt]) := by
  simp [geminiCall, retryFrom, geminiAttempt, h]

/-! ### Simple-mode (fallback) behavior of the pipeline -/

theorem generate_markdown_simple (env : Env) (validate : Validator)
    (st : LLMState) (page cc : Nat) (h : st.detailed_extraction = false) :
    generate_markdown env validate st page cc
      = (retryFrom tenacityDefaultRetry (geminiAttempt env cc) 3 0, st, cc + 1,
         [.modelCall false (defaultMdPrompt st.custom_prompt)]) := by
  cases hR : retryFrom tenacityDefaultRetry (geminiAttempt env cc) 3 0 <;>
    simp [generate_markdown, h, finishGenerate, geminiCall, hR, appendImageRefs]

theorem convert_page_state_simple (env : Env) (validate : Validator)
    (st : LLMState) (page cc : Nat) (h : st.detailed_extraction = false) :
    (convert_page env validate st page cc).2.1 = st := by
  cases hR : env.raster page with
  | error e => simp [convert_page, hR]
  | ok b =>
    rw [convert_page]
    rw [hR, generate_markdown_simple env validate st page cc h]
    cases hX : retryFrom tenacityDefaultRetry (geminiAttempt env cc) 3 0 <;>
      simp [hX] <;> split <;> rfl

theorem convertPagesFrom_state_simple (env : Env) (validate : Validator) :
    ∀ (n : Nat) (st : LLMState) (start cc : Nat),
    st.detailed_extraction = false →
    (convertPagesFrom env validate st start n cc).2.1 = st := by
  intro n
  induction n with
  | zero => intro st start cc h; rfl
  | succ n ih =>
    intro st start cc h
    rw [convertPagesFrom]
    rcases hP : convert_page env validate st start cc with ⟨res, st', cc', ev⟩
    have hst' : st' = st := by
      have := convert_page_state_simple env validate st start cc h
      rw [hP] at this
      exact this
    subst hst'
    cases res with
    | error e => simp
    | ok md =>
      rcases hQ : convertPagesFrom env validate st' (start + 1) n cc'
        with ⟨res2, st2, cc2, ev2⟩
      have hst2 : st2 = st' := by
        have := ih st' (start + 1) cc' h
        rw [hQ] at this
        exact this
      simp [hQ, hst2]

theorem convertBatchedLoop_state_simple (env : Env) (validate : Validator)
    (w : Nat) : ∀ (fuel : Nat) (st : LLMState) (cc i total : Nat),
    st.detailed_extraction = false →
    (convertBatchedLoop env validate w fuel st cc i total).2.1 = st := by
  intro fuel
  induction fuel with
  | zero => intro st cc i total h; rfl
  | succ fuel ih =>
    intro st cc i total h
    rw [convertBatchedLoop]
    by_cases hlt : i < total
    · rw [if_pos hlt]
      rcases hB : convertPagesFrom env validate st i (min w (total - i)) cc
        with ⟨res, st', cc', ev⟩
      have hst' : st' = st := by
        have := convertPagesFrom_state_simple env validate (min w (total - i)) st i cc h
        rw [hB] at this
        exact this
      subst hst'
      cases res with
      | error e => simp
      | ok batch =>
        rcases hQ : convertBatchedLoop env validate w fuel st' cc' (i + w) total
          with ⟨res2, st2, cc2, ev2⟩
        have hst2 : st2 = st' := by
          have := ih st' cc' (i + w) total h
          rw [hQ] at this
          exact this
        simp [hQ, hst2]
    · rw [if_neg hlt]

theorem convertInner_state_simple (env : Env) (validate : Validator)
    (ps : ParserState) (file : FileInput)
    (h : ps.llm.detailed_extraction = false) :
    (convertInner env validate ps file).2.1 = ps.llm := by
  rw [convertInner]
  by_cases h3 : pyLower file.suffix ∈ imageSuffixes
  · rw [if_pos h3]
    rcases hP : convert_page env validate ps.llm 0 0 with ⟨res, st', cc, ev⟩
    have hst' : st' = ps.llm := by
      have := convert_page_state_simple env validate ps.llm 0 0 h
      rw [hP] at this
      exact this
    subst hst'
    cases res <;> simp
  · rw [if_neg h3]
    by_cases h4 : ps.enable_concurrency
    · rw [if_pos h4, convertBatched]
      by_cases h5 : ps.num_workers = 0
      · rw [if_pos h5]
      · rw [if_neg h5]
        exact convertBatchedLoop_state_simple env validate ps.num_workers
          file.pageCount ps.llm 0 0 file.pageCount h
    · rw [if_neg h4]
      exact convertPagesFrom_state_simple env validate file.pageCount ps.llm 0 0 h

theorem convert_file_state_simple (env : Env) (validate : Validator)
    (ps : ParserState) (file : FileInput)
    (h : ps.llm.detailed_extraction = false) :
    (convert_file env validate ps file).2.1 = ps.llm := by
  rw [convert_file]
  by_cases h1 : file.pathExists ∧ file.isFile
  · rw [if_neg (by simp [h1.1, h1.2])]
    by_cases h2 : pyLower file.suffix ∈ supportedSuffixes
    · rw [if_neg (by simp [h2])]
      rcases hI : convertInner env validate ps file with ⟨res, st', cc, ev⟩
      have hst' : st' = ps.llm := by
        have := convertInner_state_simple env validate ps file h
        rw [hI] at this
        exact this
      subst hst'
      cases res with
      | error e =>
        simp only [hI]
        split <;> rfl
      | ok l => simp [hI]
    · rw [if_pos (by simp [h2])]
  · rw [if_pos h1]

theorem generate_markdown_decode_failure (env : Env) (validate : Validator)
    (st : LLMState) (page cc : Nat) (resp : String) (e : PyErr)
    (hdet : st.detailed_extraction = true)
    (hcall : (geminiCall env true .imageAnalysis cc).1 = .ok resp)
    (hval : validate resp = .error e) (he : e.isException = true) :
    (generate_markdown env validate st page cc).2.1 = fallbackState st := by
  have hc1 : retryFrom tenacityDefaultRetry (geminiAttempt env cc) 3 0 = .ok resp := hcall
  cases hR : retryFrom tenacityDefaultRetry (geminiAttempt env (cc + 1)) 3 0 <;>
    simp [generate_markdown, hdet, geminiCall, hc1, hval, he, finishGenerate, hR]

/-! ### Image-reference assembly -/

theorem foldl_append_join (l : List String) :
    ∀ s : String, l.foldl (fun r t => r ++ t) s = s ++ String.join l := by
  induction l with
  | nil => intro s; simp [String.join]
  | cons b bs ih =>
    intro s
    rw [List.foldl_cons, ih (s ++ b), String.append_assoc]
    congr 1
    conv_rhs => rw [String.join, List.foldl_cons, String.empty_append]
    exact (ih b).symm

theorem foldl_ref_join (m : ImageMode) (imgs : List ImageData) (s : String) :
    imgs.foldl (fun acc d => acc ++ imageRef m d) s
      = s ++ String.join (imgs.map (imageRef m)) := by
  induction imgs generalizing s with
  | nil => simp [String.join]
  | cons d ds ih =>
    rw [List.foldl_cons, ih (s ++ imageRef m d), List.map_cons]
    conv_rhs => rw [String.join, List.foldl_cons, String.empty_append]
    rw [String.append_assoc]
    congr 1
    exact (foldl_append_join (ds.map (imageRef m)) (imageRef m d)).symm

theorem appendImageRefs_none (md : String) (imgs : List ImageData) :
    appendImageRefs none md imgs = md := by
  rw [appendImageRefs]
  split <;> rfl

theorem appendImageRefs_some (m : ImageMode) (md : String) (imgs : List ImageData) :
    appendImageRefs (some m) md imgs
      = md ++ String.join (imgs.map (imageRef m)) := by
  cases imgs with
  | nil => simp [appendImageRefs, String.join]
  | cons d ds =>
    rw [appendImageRefs, if_neg (by simp)]
    exact foldl_ref_join m (d :: ds) md

theorem no_extract_of_mode_none_or_simple (env : Env) (validate : Validator)
    (st : LLMState) (page cc : Nat)
    (h : st.image_mode = none ∨ st.detailed_extraction = false) :
    Event.extract page ∉ (generate_markdown env validate st page cc).2.2.2 := by
  by_cases hd : st.detailed_extraction = true
  · rcases h with hmode | hdet
    · cases hR : retryFrom tenacityDefaultRetry (geminiAttempt env cc) 3 0 with
      | error e =>
        by_cases he : e.isException = true
        · cases hR2 : retryFrom tenacityDefaultRetry (geminiAttempt env (cc + 1)) 3 0 <;>
            simp [generate_markdown, hd, geminiCall, hR, he, finishGenerate, hR2]
        · simp [generate_markdown, hd, geminiCall, hR, he]
      | ok resp =>
        cases hV : validate resp with
        | error e =>
          by_cases he : e.isException = true
          · cases hR2 : retryFrom tenacityDefaultRetry (geminiAttempt env (cc + 1)) 3 0 <;>
              simp [generate_markdown, hd, geminiCall, hR, hV, he, finishGenerate, hR2]
          · simp [generate_markdown, hd, geminiCall, hR, hV, he]
        | ok jr =>
          by_cases hno : pyStrip jr.text_detected = "No"
          · simp [generate_markdown, hd, geminiCall, hR, hV, hno]
          · cases hR2 : retryFrom tenacityDefaultRetry (geminiAttempt env (cc + 1)) 3 0 <;>
              simp [generate_markdown, hd, geminiCall, hR, hV, hno, hmode,
                finishGenerate, hR2]
    · rw [hd] at hdet
      exact absurd hdet (by simp)
  · have hd' : st.detailed_extraction = false := by simpa using hd
    rw [generate_markdown_simple env validate st page cc hd']
    simp

/-! ### Ordering and counting of the page loops -/

theorem convertPagesFrom_ok (env : Env) (validate : Validator) :
    ∀ (n : Nat) (st : LLMState) (start cc : Nat) (l : List String)
      (st2 : LLMState) (cc2 : Nat) (ev : List Event),
    convertPagesFrom env validate st start n cc = (.ok l, st2, cc2, ev) →
    l.length = n
    ∧ ∀ k, k < n →
        (convert_page env validate
          (pageStateFrom env validate st start cc k).1 (start + k)
          (pageStateFrom env validate st start cc k).2).1 = .ok (l.getD k "") := by
  intro n
  induction n with
  | zero =>
    intro st start cc l st2 cc2 ev h
    rw [convertPagesFrom] at h
    simp only [Prod.mk.injEq, Except.ok.injEq] at h
    obtain ⟨hl, -, -, -⟩ := h
    subst hl
    exact ⟨rfl, fun k hk => absurd hk (by omega)⟩
  | succ n ih =>
    intro st start cc l st2 cc2 ev h
    rw [convertPagesFrom] at h
    rcases hP : convert_page env validate st start cc with ⟨res, st', cc', ev1⟩
    simp only [hP] at h
    cases res with
    | error e => simp at h
    | ok md =>
      rcases hQ : convertPagesFrom env validate st' (start + 1) n cc'
        with ⟨res2, st3, cc3, ev2⟩
      simp only [hQ] at h
      cases res2 with
      | error e => simp [Except.map] at h
      | ok l' =>
        simp only [Except.map, Prod.mk.injEq, Except.ok.injEq] at h
        obtain ⟨hl, -, -, -⟩ := h
        subst hl
        obtain ⟨ihlen, ihent⟩ := ih st' (start + 1) cc' l' st3 cc3 ev2 hQ
        refine ⟨by simp [ihlen], fun k hk => ?_⟩
        cases k with
        | zero => simpa [pageStateFrom, hP] using congrArg (·.1) hP
        | succ k =>
          have hps : pageStateFrom env validate st start cc (k + 1)
              = pageStateFrom env validate st' (start + 1) cc' k := by
            rw [pageStateFrom, hP]
          rw [hps, show start + (k + 1) = (start + 1) + k by omega]
          simpa using ihent k (by omega)

theorem convertPagesFrom_add (env : Env) (validate : Validator) :
    ∀ (a b : Nat) (st : LLMState) (start cc : Nat),
    convertPagesFrom env validate st start (a + b) cc
      = (match convertPagesFrom env validate st start a cc with
         | (.error e, st', cc', ev) => (.error e, st', cc', ev)
         | (.ok l1, st', cc', ev) =>
           match convertPagesFrom env validate st' (start + a) b cc' with
           | (res, st2, cc2, ev2) => (res.map (l1 ++ ·), st2, cc2, ev ++ ev2)) := by
  intro a
  induction a with
  | zero =>
    intro b st start cc
    rw [Nat.zero_add]
    rcases hQ : convertPagesFrom env validate st start b cc with ⟨res, st2, cc2, ev2⟩
    show (res, st2, cc2, ev2)
      = (match convertPagesFrom env validate st (start + 0) b cc with
         | (res, st2, cc2, ev2) => (res.map (([] : List String) ++ ·), st2, cc2,
             ([] : List Event) ++ ev2))
    rw [show start + 0 = start from rfl, hQ]
    cases res <;> simp [Except.map]
  | succ a iha =>
    intro b st start cc
    rw [show a + 1 + b = (a + b) + 1 by omega]
    rcases hP : convert_page env validate st start cc with ⟨res, st', cc', ev1⟩
    cases res with
    | error e => simp [convertPagesFrom, hP]
    | ok md =>
      rw [convertPagesFrom, hP]
      dsimp only
      rw [iha b st' (start + 1) cc']
      conv_rhs => rw [convertPagesFrom, hP]
      dsimp only
      rcases hA : convertPagesFrom env validate st' (start + 1) a cc'
        with ⟨resA, stA, ccA, evA⟩
      cases resA with
      | error e => simp [Except.map]
      | ok l1 =>
        dsimp only
        rw [show start + (a + 1) = start + 1 + a by omega]
        rcases hB : convertPagesFrom env validate stA (start + 1 + a) b ccA
          with ⟨resB, stB, ccB, evB⟩
        cases resB <;> simp [hB, Except.map, List.append_assoc]

theorem convertBatchedLoop_eq_flat (env : Env) (validate : Validator) (w : Nat)
    (hw : 0 < w) : ∀ (fuel : Nat) (st : LLMState) (cc i total : Nat),
    total - i ≤ fuel * w →
    convertBatchedLoop env validate w fuel st cc i total
      = convertPagesFrom env validate st i (total - i) cc := by
  intro fuel
  induction fuel with
  | zero =>
    intro st cc i total hle
    have h0 : total - i = 0 := by omega
    rw [h0]
    rfl
  | succ fuel ih =>
    intro st cc i total hle
    have hle' : total - (i + w) ≤ fuel * w := by
      rw [Nat.succ_mul] at hle
      omega
    rw [convertBatchedLoop]
    by_cases hlt : i < total
    · rw [if_pos hlt]
      have hbs : total - i = min w (total - i) + (total - i - min w (total - i)) := by
        omega
      conv_rhs => rw [hbs]
      rw [convertPagesFrom_add env validate (min w (total - i))
        (total - i - min w (total - i)) st i cc]
      rcases hB : convertPagesFrom env validate st i (min w (total - i)) cc
        with ⟨res, st', cc', ev⟩
      cases res with
      | error e => rfl
      | ok batch =>
        dsimp only
        rw [ih st' cc' (i + w) total hle']
        by_cases hwle : w ≤ total - i
        · rw [show min w (total - i) = w from by omega]
          rw [show total - i - w = total - (i + w) from by omega]
        · rw [show min w (total - i) = total - i from by omega]
          rw [show total - i - (total - i) = 0 from by omega]
          rw [show total - (i + w) = 0 from by omega]
          rcases hC : convertPagesFrom env validate st' (i + (total - i)) 0 cc'
            with ⟨resC, stC, ccC, evC⟩
          rw [convertPagesFrom] at hC
          rw [convertPagesFrom]
          simp only [Prod.mk.injEq] at hC
          obtain ⟨h1, h2, h3, h4⟩ := hC
          subst h1; subst h2; subst h3; subst h4
          rfl
    · rw [if_neg hlt]
      have h0 : total - i = 0 := by omega
      rw [h0]
      rfl

theorem convertInner_pdf_eq_flat (env : Env) (validate : Validator)
    (ps : ParserState) (file : FileInput)
    (hpdf : pyLower file.suffix = ".pdf") (hw : 0 < ps.num_workers) :
    convertInner env validate ps file
      = convertPagesFrom env validate ps.llm 0 file.pageCount 0 := by
  rw [convertInner, if_neg (by rw [hpdf]; decide)]
  by_cases hc : ps.enable_concurrency
  · rw [if_pos hc, convertBatched, if_neg (by omega)]
    have h := convertBatchedLoop_eq_flat env validate ps.num_workers hw
      file.pageCount ps.llm 0 0 file.pageCount
      (by simpa using Nat.le_mul_of_pos_right file.pageCount hw)
    simpa using h
  · rw [if_neg hc]

/-! ### Claims -/

/-- Claim C10: the fenced-code-block stripping is applied to every model
response, structured calls included, not only freeform calls: `_gemini` returns
`re.sub`-unfenced text for both call kinds, so a structured (JSON) response
wrapped in a bare or `markdown`-tagged fence is unfenced before schema
validation; and for a response that is one fenced block whose inner text
contains no closing delimiter, the substitution yields exactly the inner
content. -/
theorem C10_fences_stripped_before_validation :
    (∀ (env : Env) (structured : Bool) (prompt : Prompt) (cc : Nat) (raw : String),
        env.respond cc 0 = .ok raw →
        (geminiCall env structured prompt cc).1 = .ok (stripFencesStr raw))
    ∧ ∀ m : String, hasClose m.data = false →
        stripFencesStr ("```\n" ++ m ++ "\n```") = m
        ∧ stripFencesStr ("```markdown\n" ++ m ++ "\n```") = m := by
  constructor
  · intro env structured prompt cc raw h
    rw [geminiCall_first_ok structured prompt h]
  · intro m hm
    have hw := stripFences_wrap (m := m.data) hm
    constructor
    · have hd : ("```\n" ++ m ++ "\n```").data
          = openerPlain ++ m.data ++ closeTok := by
        simp [String.data_append, openerPlain, closeTok]
      rw [stripFencesStr, hd, hw.1]
    · have hd : ("```markdown\n" ++ m ++ "\n```").data
          = openerMd ++ m.data ++ closeTok := by
        simp [String.data_append, openerMd, closeTok]
      rw [stripFencesStr, hd, hw.2]

theorem C10_witness :
    (geminiCall ⟨fun _ _ => .ok "```\nJSONBODY\n```", fun _ => [], fun _ => .ok "png"⟩
        true .imageAnalysis 0).1 = .ok "JSONBODY" := by
  have h1 := C10_fences_stripped_before_validation.1
    ⟨fun _ _ => .ok "```\nJSONBODY\n```", fun _ => [], fun _ => .ok "png"⟩
    true .imageAnalysis 0 "```\nJSONBODY\n```" rfl
  have h2 := (C10_fences_stripped_before_validation.2 "JSONBODY" (by decide)).1
  rw [h1]
  rw [show ("```\n" ++ "JSONBODY" ++ "\n```" : String) = "```\nJSONBODY\n```" from rfl] at h2
  rw [h2]

/-- Claim C3: whenever detailed extraction is active and the structured analysis
call on a page succeeds with `text_detected = "No"`, `generate_markdown` returns
the empty string for that page; the event list of the call is exactly the one
structured invocation, so neither a freeform markdown-generation call nor an
image extraction occurs, and the state is unchanged. -/
theorem C3_short_circuit_on_no_text
    (env : Env) (validate : Validator) (st : LLMState) (page cc : Nat)
    (resp : String) (jr : ImageDescription)
    (hdet : st.detailed_extraction = true)
    (hcall : (geminiCall env true .imageAnalysis cc).1 = .ok resp)
    (hval : validate resp = .ok jr)
    (hno : pyStrip jr.text_detected = "No") :
    generate_markdown env validate st page cc
      = (.ok "", st, cc + 1, [.modelCall true .imageAnalysis]) := by
  have hc : retryFrom tenacityDefaultRetry (geminiAttempt env cc) 3 0 = .ok resp := hcall
  simp [generate_markdown, hdet, geminiCall, hc, hval, hno]

theorem C3_witness :
    generate_markdown ⟨fun _ _ => .ok "ANALYSIS", fun _ => [], fun _ => .ok "png"⟩
        (fun _ => .ok ⟨"No", "Yes", "Yes", "No", "some text", 1⟩)
        ⟨some .url, none, true⟩ 0 0
      = (.ok "", ⟨some .url, none, true⟩, 1, [.modelCall true .imageAnalysis]) :=
  C3_short_circuit_on_no_text
    ⟨fun _ _ => .ok "ANALYSIS", fun _ => [], fun _ => .ok "png"⟩
    (fun _ => .ok ⟨"No", "Yes", "Yes", "No", "some text", 1⟩)
    ⟨some .url, none, true⟩ 0 0 "ANALYSIS" ⟨"No", "Yes", "Yes", "No", "some text", 1⟩
    rfl rfl rfl (by decide)

/-- Claim C2 is refuted on the code: a structured-analysis failure by call
exhaustion does not yield a fallback markdown result for the page.  The
`LLMError` raised by `_gemini` derives from `BaseException`, so the
`except Exception` handler in `generate_markdown` does not catch it: the page
produces no markdown, no freeform call is made, and `detailed_extraction` is
not switched off.  Evaluated at a page whose analysis call raises on every
attempt. -/
theorem C2_retry_exhaustion_propagates_uncaught :
    generate_markdown (failEnv "network unreachable")
        (fun _ => .ok ⟨"Yes", "No", "No", "No", "", 0⟩) ⟨none, none, true⟩ 0 0
      = (.error (.llmError "Gemini Model processing failed: network unreachable"),
         ⟨none, none, true⟩, 1, [.modelCall true .imageAnalysis]) := rfl

/-- Claim C4 is refuted on the code: a model call that fails on attempt 1 with a
transient error and would succeed on attempt 2 nevertheless fails.  Tenacity's
default retry condition retries only `Exception` instances, and `_gemini`
re-raises every failure as `LLMError`, a direct `BaseException` subclass, so the
error is re-raised after the first attempt; the same attempt oracle under a
retry-everything condition recovers, isolating the retry condition as the
cause. -/
theorem C4_transient_failure_never_retried :
    (geminiCall flakyEnv false .imageAnalysis 0).1
      = .error (.llmError "Gemini Model processing failed: transient")
    ∧ retryFrom (fun _ => true) (geminiAttempt flakyEnv 0) 3 0 = .ok "recovered" :=
  ⟨rfl, rfl⟩

/-- Claim C5 is refuted on the code: a markdown-generation (GENERATE) failure
after attempt exhaustion aborts the conversion with the raw `LLMError`, not with
a `VisionParserError` carrying the page index: being a `BaseException`, the
`LLMError` escapes the `except Exception` handlers of both `_convert_page` and
`convert_file`.  Evaluated on a two-page PDF whose first page converts and whose
second page's markdown call fails; no partial page list is returned. -/
theorem C5_generate_failure_escapes_unwrapped :
    convert_file genFailEnv (fun _ => .error (.validationError "unused"))
        ⟨⟨none, none, false⟩, false, 2⟩ ⟨"doc.pdf", true, true, ".pdf", 2, "bytes"⟩
      = (.error (.llmError "Gemini Model processing failed: connection reset"),
         ⟨none, none, false⟩, 2,
         [.modelCall false (defaultMdPrompt none),
          .modelCall false (defaultMdPrompt none)]) := rfl

/-- Claim C7: `convert_file` raises `FileNotFoundError` when the input path does
not exist and `UnsupportedFileError` when the lower-cased file-name extension is
not one of `.pdf`, `.png`, `.jpg`, `.jpeg`; in both cases the event list is
empty, so the failure happens before any model call; and the outcome is
independent of the file content, so classification is by extension only with no
sniffing. -/
theorem C7_validation_by_extension_only
    (env : Env) (validate : Validator) (ps : ParserState) (file : FileInput) :
    (file.pathExists = false →
        convert_file env validate ps file
          = (.error (.fileNotFoundError ("File not found: " ++ file.path)),
             ps.llm, 0, []))
    ∧ (file.pathExists = true → file.isFile = true →
        pyLower file.suffix ∉ supportedSuffixes →
        convert_file env validate ps file
          = (.error (.unsupportedFileError ("Unsupported file type: " ++ file.path)),
             ps.llm, 0, []))
    ∧ (∀ c : String,
        convert_file env validate ps
          ⟨file.path, file.pathExists, file.isFile, file.suffix, file.pageCount, c⟩
          = convert_file env validate ps file) := by
  refine ⟨fun h => ?_, fun hex hif hsup => ?_, fun c => rfl⟩
  · simp [convert_file, h]
  · simp [convert_file, hex, hif, hsup]

theorem C7_witness :
    convert_file (failEnv "never called") (fun _ => .error (.validationError "x"))
        ⟨⟨none, none, true⟩, false, 1⟩ ⟨"report.docx", true, true, ".docx", 0, "bytes"⟩
      = (.error (.unsupportedFileError "Unsupported file type: report.docx"),
         ⟨none, none, true⟩, 0, [])
    ∧ convert_file (failEnv "never called") (fun _ => .error (.validationError "x"))
        ⟨⟨none, none, true⟩, false, 1⟩ ⟨"missing.pdf", false, true, ".pdf", 3, ""⟩
      = (.error (.fileNotFoundError "File not found: missing.pdf"),
         ⟨none, none, true⟩, 0, []) := by
  constructor
  · exact (C7_validation_by_extension_only _ _ _ _).2.1 rfl rfl (by decide)
  · exact (C7_validation_by_extension_only _ _ _ _).1 rfl

/-- Claim C8: for every page, the rasterization transform maps a point to its
rotation by the page's intrinsic rotation (a PyMuPDF-normalized multiple of 90)
followed by scaling of both axes by `2 * (dpi / 72)`; a page with zero rotation
gets the pure scaling matrix with `zoom * 2` on both diagonal entries. -/
theorem C8_rasterization_matrix (dpi rot : Int) (x y : Rat)
    (hrot : rot = 0 ∨ rot = 90 ∨ rot = 180 ∨ rot = 270) :
    (calculate_matrix dpi rot).apply x y
      = scalePoint (2 * ((dpi : Rat) / 72)) (rotatePoint rot (x, y))
    ∧ calculate_matrix dpi 0
        = fitzScale ((dpi : Rat) / 72 * 2) ((dpi : Rat) / 72 * 2) := by
  constructor
  · rcases hrot with h | h | h | h <;> subst h <;>
      simp [calculate_matrix, FitzMatrix.prerotate, FitzMatrix.apply,
        rotatePoint, scalePoint, fitzScale, Prod.ext_iff] <;>
      constructor <;> ring
  · simp [calculate_matrix, fitzScale]

theorem C8_witness :
    (calculate_matrix 150 90).apply 3 5
      = scalePoint (2 * ((150 : Rat) / 72)) (rotatePoint 90 (3, 5))
    ∧ calculate_matrix 150 0
        = fitzScale ((150 : Rat) / 72 * 2) ((150 : Rat) / 72 * 2) :=
  C8_rasterization_matrix 150 90 3 5 (Or.inr (Or.inl rfl))

/-- Claim C9, as stated, is false of the code: not every structured-analysis
failure sets the detailed-extraction flag to `False`.  A retry-exhaustion
failure surfaces as `LLMError`, a `BaseException` that escapes the
`except Exception` handler, and the flag stays `True` on the shared state.
Evaluated at a page whose analysis call raises on every attempt. -/
theorem C9_counterexample_exhaustion_leaves_flag_true :
    (generate_markdown (failEnv "deadline exceeded")
        (fun _ => .ok ⟨"Yes", "No", "No", "No", "", 0⟩)
        ⟨none, none, true⟩ 3 0).2.1.detailed_extraction = true := rfl

/-- Claim C9 (amended): the fallback flip outlives the run.  A
structured-analysis failure that the handler catches (a schema-decode failure,
which is an `Exception`) leaves the LLM state with
`detailed_extraction = false`; once the flag is false, `generate_markdown`
leaves the state untouched and performs exactly one freeform call with the
fixed default prompt, and `convert_page` and every later `convert_file` on the
same parser also leave the state untouched — so the flag, once false, stays
false under every operation.  (A retry-exhaustion `LLMError` instead propagates
without touching the flag; see the counterexample above.) -/
theorem C9_fallback_flag_sticky :
    (∀ (env : Env) (validate : Validator) (st : LLMState) (page cc : Nat)
        (resp : String) (e : PyErr),
        st.detailed_extraction = true →
        (geminiCall env true .imageAnalysis cc).1 = .ok resp →
        validate resp = .error e → e.isException = true →
        (generate_markdown env validate st page cc).2.1.detailed_extraction = false)
    ∧ (∀ (env : Env) (validate : Validator) (st : LLMState) (page cc : Nat),
        st.detailed_extraction = false →
        (generate_markdown env validate st page cc).2.1 = st
        ∧ (generate_markdown env validate st page cc).2.2.2
            = [.modelCall false (defaultMdPrompt st.custom_prompt)])
    ∧ (∀ (env : Env) (validate : Validator) (st : LLMState) (page cc : Nat),
        st.detailed_extraction = false →
        (convert_page env validate st page cc).2.1 = st)
    ∧ (∀ (env : Env) (validate : Validator) (ps : ParserState) (file : FileInput),
        ps.llm.detailed_extraction = false →
        (convert_file env validate ps file).2.1 = ps.llm) := by
  refine ⟨?_, ?_, ?_, ?_⟩
  · intro env validate st page cc resp e hdet hcall hval he
    rw [generate_markdown_decode_failure env validate st page cc resp e hdet hcall hval he]
    rfl
  · intro env validate st page cc h
    rw [generate_markdown_simple env validate st page cc h]
    exact ⟨rfl, rfl⟩
  · intro env validate st page cc h
    exact convert_page_state_simple env validate st page cc h
  · intro env validate ps file h
    exact convert_file_state_simple env validate ps file h

theorem C9_witness :
    (generate_markdown ⟨fun _ _ => .ok "RAW", fun _ => [], fun _ => .ok "png"⟩
        (fun _ => .error (.validationError "invalid schema"))
        ⟨some .url, some "extra", true⟩ 0 0).2.1.detailed_extraction = false
    ∧ (convert_file ⟨fun _ _ => .ok "RAW", fun _ => [], fun _ => .ok "png"⟩
        (fun _ => .error (.validationError "invalid schema"))
        ⟨⟨some .url, some "extra", false⟩, true, 2⟩
        ⟨"doc.pdf", true, true, ".pdf", 3, "bytes"⟩).2.1
      = ⟨some .url, some "extra", false⟩ := by
  constructor
  · exact C9_fallback_flag_sticky.1
      ⟨fun _ _ => .ok "RAW", fun _ => [], fun _ => .ok "png"⟩
      (fun _ => .error (.validationError "invalid schema"))
      ⟨some .url, some "extra", true⟩ 0 0 "RAW" (.validationError "invalid schema")
      rfl rfl rfl rfl
  · exact C9_fallback_flag_sticky.2.2.2
      ⟨fun _ _ => .ok "RAW", fun _ => [], fun _ => .ok "png"⟩
      (fun _ => .error (.validationError "invalid schema"))
      ⟨⟨some .url, some "extra", false⟩, true, 2⟩
      ⟨"doc.pdf", true, true, ".pdf", 3, "bytes"⟩ rfl

/-- Claim C6: for each page, assembly appends exactly one markdown image
reference per extracted image — in `url` mode the reference target is the
image's locator, in `base64` mode the inline-encoded payload; when the
image-inclusion mode is unset, the markdown is returned without references even
when the analysis reported `images_detected = "Yes"`, and the extractor is
never invoked when the mode is unset or detailed extraction is off. -/
theorem C6_image_reference_modes :
    (∀ (env : Env) (validate : Validator) (st : LLMState) (page cc : Nat)
        (resp md : String) (jr : ImageDescription),
        st.detailed_extraction = true →
        (geminiCall env true .imageAnalysis cc).1 = .ok resp →
        validate resp = .ok jr →
        pyStrip jr.text_detected ≠ "No" →
        pyStrip jr.images_detected = "Yes" →
        (geminiCall env false
            (.markdownPrompt jr.extracted_text jr.tables_detected
              jr.latex_equations_detected jr.confidence_score_text st.custom_prompt)
            (cc + 1)).1 = .ok md →
        (st.image_mode = some .url →
            (generate_markdown env validate st page cc).1
              = .ok (md ++ String.join
                  ((env.extractImages page).map (imageRef .url))))
        ∧ (st.image_mode = some .base64 →
            (generate_markdown env validate st page cc).1
              = .ok (md ++ String.join
                  ((env.extractImages page).map (imageRef .base64))))
        ∧ (st.image_mode = none →
            (generate_markdown env validate st page cc).1 = .ok md))
    ∧ (∀ (env : Env) (validate : Validator) (st : LLMState) (page cc : Nat),
        st.image_mode = none ∨ st.detailed_extraction = false →
        Event.extract page ∉ (generate_markdown env validate st page cc).2.2.2) := by
  constructor
  · intro env validate st page cc resp md jr hdet hcall hval htext himg hmd
    have hc1 : retryFrom tenacityDefaultRetry (geminiAttempt env cc) 3 0 = .ok resp := hcall
    have hm1 : retryFrom tenacityDefaultRetry (geminiAttempt env (cc + 1)) 3 0 = .ok md := hmd
    refine ⟨fun hmode => ?_, fun hmode => ?_, fun hmode => ?_⟩ <;>
      simp [generate_markdown, hdet, geminiCall, hc1, hval, htext, himg, hmode,
        finishGenerate, hm1, appendImageRefs_some, appendImageRefs_none]
  · exact no_extract_of_mode_none_or_simple

theorem C6_witness :
    (generate_markdown
        ⟨fun _ _ => .ok "body", fun p => [⟨"img_a.png", "AAAA"⟩, ⟨"img_b.png", "BBBB"⟩],
         fun _ => .ok "png"⟩
        (fun _ => .ok ⟨"Yes", "No", "Yes", "No", "txt", 1⟩)
        ⟨some .url, none, true⟩ 7 0).1
      = .ok "body\n\n![img_a.png](img_a.png)\n\n![img_b.png](img_b.png)"
    ∧ (generate_markdown
        ⟨fun _ _ => .ok "body", fun p => [⟨"img_a.png", "AAAA"⟩, ⟨"img_b.png", "BBBB"⟩],
         fun _ => .ok "png"⟩
        (fun _ => .ok ⟨"Yes", "No", "Yes", "No", "txt", 1⟩)
        ⟨none, none, true⟩ 7 0).1 = .ok "body" := by
  constructor
  · have h := ((C6_image_reference_modes.1
      ⟨fun _ _ => .ok "body", fun p => [⟨"img_a.png", "AAAA"⟩, ⟨"img_b.png", "BBBB"⟩],
       fun _ => .ok "png"⟩
      (fun _ => .ok ⟨"Yes", "No", "Yes", "No", "txt", 1⟩)
      ⟨some .url, none, true⟩ 7 0 "body" "body" ⟨"Yes", "No", "Yes", "No", "txt", 1⟩
      rfl rfl rfl (by decide) (by decide) rfl).1) rfl
    exact h
  · exact ((C6_image_reference_modes.1
      ⟨fun _ _ => .ok "body", fun p => [⟨"img_a.png", "AAAA"⟩, ⟨"img_b.png", "BBBB"⟩],
       fun _ => .ok "png"⟩
      (fun _ => .ok ⟨"Yes", "No", "Yes", "No", "txt", 1⟩)
      ⟨none, none, true⟩ 7 0 "body" "body" ⟨"Yes", "No", "Yes", "No", "txt", 1⟩
      rfl rfl rfl (by decide) (by decide) rfl).2.2) rfl

/-- Claim C1: for every input and configuration with worker count ≥ 1, the
result of `convert_file` is independent of the concurrency setting; on a
successful PDF run the returned list has exactly the document's page count and
its `k`-th entry is the markdown the per-page conversion produces for page `k`
at the run state reached after pages `0..k-1`; a successful standalone-image
run returns exactly one entry, the conversion of the single synthetic page at
index 0. -/
theorem C1_page_order_and_count (env : Env) (validate : Validator)
    (ps : ParserState) (file : FileInput) (hw : 0 < ps.num_workers) :
    (pyLower file.suffix = ".pdf" →
        convert_file env validate ps file
          = convert_file env validate ⟨ps.llm, false, ps.num_workers⟩ file)
    ∧ (∀ (l : List String) (st : LLMState) (cc : Nat) (ev : List Event),
        pyLower file.suffix = ".pdf" →
        convert_file env validate ps file = (.ok l, st, cc, ev) →
        l.length = file.pageCount
        ∧ ∀ k, k < file.pageCount →
            (convert_page env validate
              (pageStateFrom env validate ps.llm 0 0 k).1 k
              (pageStateFrom env validate ps.llm 0 0 k).2).1 = .ok (l.getD k ""))
    ∧ (∀ (l : List String) (st : LLMState) (cc : Nat) (ev : List Event),
        pyLower file.suffix ∈ imageSuffixes →
        convert_file env validate ps file = (.ok l, st, cc, ev) →
        ∃ t, l = [t] ∧ (convert_page env validate ps.llm 0 0).1 = .ok t) := by
  refine ⟨?_, ?_, ?_⟩
  · intro hpdf
    rw [convert_file, convert_file]
    rw [convertInner_pdf_eq_flat env validate ps file hpdf hw]
    rw [convertInner_pdf_eq_flat env validate ⟨ps.llm, false, ps.num_workers⟩ file hpdf hw]
  · intro l st cc ev hpdf hok
    have hflat : convertInner env validate ps file = (.ok l, st, cc, ev) := by
      rw [convert_file] at hok
      by_cases h1 : ¬(file.pathExists ∧ file.isFile)
      · rw [if_pos h1] at hok
        exact absurd hok (by simp)
      · rw [if_neg h1] at hok
        by_cases h2 : pyLower file.suffix ∉ supportedSuffixes
        · rw [if_pos h2] at hok
          exact absurd hok (by simp)
        · rw [if_neg h2] at hok
          rcases hI : convertInner env validate ps file with ⟨res, stI, ccI, evI⟩
          rw [hI] at hok
          cases res with
          | error e =>
            dsimp only at hok
            split at hok <;> simp at hok
          | ok l2 =>
            exact hok
    rw [convertInner_pdf_eq_flat env validate ps file hpdf hw] at hflat
    obtain ⟨hlen, hent⟩ := convertPagesFrom_ok env validate file.pageCount
      ps.llm 0 0 l st cc ev hflat
    refine ⟨hlen, fun k hk => ?_⟩
    simpa using hent k hk
  · intro l st cc ev himg hok
    have hflat : convertInner env validate ps file = (.ok l, st, cc, ev) := by
      rw [convert_file] at hok
      by_cases h1 : ¬(file.pathExists ∧ file.isFile)
      · rw [if_pos h1] at hok
        exact absurd hok (by simp)
      · rw [if_neg h1] at hok
        by_cases h2 : pyLower file.suffix ∉ supportedSuffixes
        · rw [if_pos h2] at hok
          exact absurd hok (by simp)
        · rw [if_neg h2] at hok
          rcases hI : convertInner env validate ps file with ⟨res, stI, ccI, evI⟩
          rw [hI] at hok
          cases res with
          | error e =>
            dsimp only at hok
            split at hok <;> simp at hok
          | ok l2 =>
            exact hok
    rw [convertInner, if_pos himg] at hflat
    rcases hP : convert_page env validate ps.llm 0 0 with ⟨res, stP, ccP, evP⟩
    rw [hP] at hflat
    cases res with
    | error e => simp at hflat
    | ok t =>
      simp only [Prod.mk.injEq, Except.ok.injEq] at hflat
      obtain ⟨hl, -, -, -⟩ := hflat
      exact ⟨t, hl.symm, rfl⟩

theorem C1_witness :
    (convert_file ⟨fun _ _ => .ok "page md", fun _ => [], fun _ => .ok "png"⟩
        (fun _ => .error (.validationError "unused"))
        ⟨⟨none, none, false⟩, true, 2⟩ ⟨"doc.pdf", true, true, ".pdf", 5, "bytes"⟩
      = convert_file ⟨fun _ _ => .ok "page md", fun _ => [], fun _ => .ok "png"⟩
        (fun _ => .error (.validationError "unused"))
        ⟨⟨none, none, false⟩, false, 2⟩ ⟨"doc.pdf", true, true, ".pdf", 5, "bytes"⟩)
    ∧ (["page md", "page md", "page md", "page md", "page md"] : List String).length = 5 := by
  constructor
  · exact (C1_page_order_and_count
      ⟨fun _ _ => .ok "page md", fun _ => [], fun _ => .ok "png"⟩
      (fun _ => .error (.validationError "unused"))
      ⟨⟨none, none, false⟩, true, 2⟩ ⟨"doc.pdf", true, true, ".pdf", 5, "bytes"⟩
      (by decide)).1 rfl
  · exact (((C1_page_order_and_count
      ⟨fun _ _ => .ok "page md", fun _ => [], fun _ => .ok "png"⟩
      (fun _ => .error (.validationError "unused"))
      ⟨⟨none, none, false⟩, true, 2⟩ ⟨"doc.pdf", true, true, ".pdf", 5, "bytes"⟩
      (by decide)).2.1)
      ["page md", "page md", "page md", "page md", "page md"]
      ⟨none, none, false⟩ 5
      [.modelCall false (defaultMdPrompt none), .modelCall false (defaultMdPrompt none),
       .modelCall false (defaultMdPrompt none), .modelCall false (defaultMdPrompt none),
       .modelCall false (defaultMdPrompt none)]
      rfl rfl).1

end VisionParse
